import Mathlib

/- Shallow embedding of the Glicko-ts rating engine (src/src/glicko.ts together
with src/src/utils/math-utils.ts and src/src/config/glicko_config.ts) over the
real numbers.  JS numbers are modelled as real numbers, Date values as real
timestamps, fields that may be undefined as Option, and thrown Error values as
Except.error carrying the message string.  console.warn is a pure diagnostic
with no effect on the returned value, so the skip-and-warn loops are modelled
as skip loops. -/

namespace GlickoTS

/- MathUtils.roundToDecimalPlaces: Math.round(num * 10^places) / 10^places,
where JS Math.round x = floor (x + 1/2).  The places = 0 branch of the source
returns Math.round(num) directly, which is the same formula with 10^0 = 1; the
final Number(rounded.toFixed(places)) is the identity on the real value. -/
noncomputable def roundToDecimalPlaces (num : ℝ) (places : ℕ) : ℝ :=
  (⌊num * (10 : ℝ) ^ places + 1 / 2⌋ : ℝ) / (10 : ℝ) ^ places

namespace MathUtils

/- MathUtils.g rd q: term = 3 q^2 rd^2 / pi^2, result 1 / sqrt (1 + term). -/
noncomputable def g (rd q : ℝ) : ℝ :=
  1 / Real.sqrt (1 + 3 * q ^ 2 * rd ^ 2 / Real.pi ^ 2)

end MathUtils

/- src/src/config/glicko_config.ts: the GlickoConfig interface.
roundingPrecision is modelled as a natural number, which is exactly the
values accepted by the constructor check (roundingPrecision < 0 ||
!Number.isInteger(roundingPrecision) rejects everything else). -/
structure GlickoConfig where
  initialRating : ℝ
  initialRD : ℝ
  inactivityConstant : ℝ
  rdCeiling : ℝ
  q : ℝ
  daysPerRatingPeriod : ℝ
  roundingPrecision : ℕ

/- Partial<GlickoConfig>: every field may be absent. -/
structure GlickoConfigOverrides where
  initialRating : Option ℝ := none
  initialRD : Option ℝ := none
  inactivityConstant : Option ℝ := none
  rdCeiling : Option ℝ := none
  q : Option ℝ := none
  daysPerRatingPeriod : Option ℝ := none
  roundingPrecision : Option ℕ := none

/- Glicko.defaultConfig (src/src/glicko.ts lines 51-61). -/
noncomputable def defaultConfig : GlickoConfig where
  initialRating := 1500
  initialRD := 350
  inactivityConstant := 0.5
  rdCeiling := 350
  q := Real.log 10 / 400
  daysPerRatingPeriod := 30
  roundingPrecision := 2

/- The Glicko constructor (src/src/glicko.ts lines 21-44): spread the defaults,
spread the caller overrides on top, then overwrite q with the default q, then
validate.  The roundingPrecision check of the source is identically true on
natural numbers and therefore has no error branch here. -/
noncomputable def mkGlicko (config : GlickoConfigOverrides) : Except String GlickoConfig :=
  let merged : GlickoConfig :=
    { initialRating := config.initialRating.getD defaultConfig.initialRating
      initialRD := config.initialRD.getD defaultConfig.initialRD
      inactivityConstant := config.inactivityConstant.getD defaultConfig.inactivityConstant
      rdCeiling := config.rdCeiling.getD defaultConfig.rdCeiling
      q := config.q.getD defaultConfig.q
      daysPerRatingPeriod := config.daysPerRatingPeriod.getD defaultConfig.daysPerRatingPeriod
      roundingPrecision := config.roundingPrecision.getD defaultConfig.roundingPrecision }
  let cfg : GlickoConfig := { merged with q := defaultConfig.q }
  if cfg.initialRating < 0 then Except.error "initialRating must be non-negative."
  else if cfg.initialRD < 0 then Except.error "initialRD must be non-negative."
  else if cfg.inactivityConstant < 0 then Except.error "inactivityConstant must be non-negative."
  else if cfg.rdCeiling < 0 then Except.error "rdCeiling must be non-negative."
  else if cfg.daysPerRatingPeriod ≤ 0 then Except.error "daysPerRatingPeriod must be positive."
  else Except.ok cfg

/- src/src/interfaces/player.ts: rating, rd, optional lastPlayedMatch Date. -/
structure Player where
  rating : ℝ
  rd : ℝ
  lastPlayedMatch : Option ℝ := none

/- src/src/interfaces/opponent.ts: the opponent snapshot used by Match. -/
structure Opponent where
  rating : ℝ
  rd : ℝ

/- src/src/interfaces/match.ts. -/
structure Match where
  player : Player
  opponent : Opponent
  score : ℝ
  datePlayed : ℝ

/- Glicko.updateRDForInactivity (lines 90-99).  The JS guard
!player.lastPlayedMatch is truthiness of the optional Date: absent means the
branch is taken (a Date object is always truthy). -/
noncomputable def updateRDForInactivity (cfg : GlickoConfig) (player : Player)
    (daysSinceLastActive : ℝ) : Except String Player :=
  if daysSinceLastActive < 0 then
    Except.error "Days since last active cannot be negative."
  else if player.lastPlayedMatch.isNone then
    Except.ok player
  else
    let periodsSinceLastActivity := daysSinceLastActive / cfg.daysPerRatingPeriod
    let newRd := min
      (Real.sqrt (player.rd ^ 2 + cfg.inactivityConstant ^ 2 * periodsSinceLastActivity))
      cfg.rdCeiling
    Except.ok { player with rd := roundToDecimalPlaces newRd cfg.roundingPrecision }

/- Glicko.calculateExpectedOutcome (lines 111-115). -/
noncomputable def calculateExpectedOutcome (cfg : GlickoConfig)
    (playerRating opponentRating opponentRd : ℝ) : ℝ :=
  let gOpp := MathUtils.g opponentRd cfg.q
  let exponent := -gOpp * (playerRating - opponentRating) * cfg.q
  1 / (1 + Real.exp exponent)

/- Glicko.sumMatchVarianceFactors (lines 129-144): throws on non-positive
player RD, otherwise folds over the matches, skipping (with a console
diagnostic, which carries no value) every match whose opponent RD is not
positive and accumulating g(opp.rd)^2 * E * (1 - E). -/
noncomputable def sumMatchVarianceFactors (cfg : GlickoConfig)
    (playerRating playerRd : ℝ) (matchs : List Match) : Except String ℝ :=
  if playerRd ≤ 0 then Except.error "Player RD must be positive for calculations."
  else Except.ok (matchs.foldl
    (fun sum m =>
      if m.opponent.rd ≤ 0 then sum
      else
        sum + MathUtils.g m.opponent.rd cfg.q ^ 2 *
          calculateExpectedOutcome cfg playerRating m.opponent.rating m.opponent.rd *
          (1 - calculateExpectedOutcome cfg playerRating m.opponent.rating m.opponent.rd))
    0)

/- Glicko.sumWeightedScorePerformance (lines 159-175): same guard and skip
policy, accumulating g(opp.rd) * (score - E). -/
noncomputable def sumWeightedScorePerformance (cfg : GlickoConfig)
    (playerRating playerRd : ℝ) (matchs : List Match) : Except String ℝ :=
  if playerRd ≤ 0 then Except.error "Player RD must be positive for calculations."
  else Except.ok (matchs.foldl
    (fun sum m =>
      if m.opponent.rd ≤ 0 then sum
      else
        sum + MathUtils.g m.opponent.rd cfg.q *
          (m.score - calculateExpectedOutcome cfg playerRating m.opponent.rating m.opponent.rd))
    0)

/- Glicko.calculateNewRating (lines 188-192). -/
noncomputable def calculateNewRating (cfg : GlickoConfig)
    (initialRating newRd weightedScorePerformanceSum : ℝ) : ℝ :=
  let newRdSquared := newRd ^ 2
  let ratingChange := cfg.q * newRdSquared * weightedScorePerformanceSum
  initialRating + ratingChange

/- Glicko.calculateNewRD (lines 204-212). -/
noncomputable def calculateNewRD (cfg : GlickoConfig)
    (initialRd matchVarianceFactorSum : ℝ) : Except String ℝ :=
  if initialRd ≤ 0 then Except.error "Initial RD must be positive."
  else if matchVarianceFactorSum ≤ 0 then Except.ok initialRd
  else
    let qSquared := cfg.q ^ 2
    let initialRdSquaredInverse := 1 / initialRd ^ 2
    let dSquaredInverse := qSquared * matchVarianceFactorSum
    let newRdSquared := 1 / (initialRdSquaredInverse + dSquaredInverse)
    Except.ok (Real.sqrt newRdSquared)

/- Glicko.processGameResults (lines 240-273).  daysSinceLastActive is the
optional third argument; now models the wall-clock Date stamped on the result.
The JS emptiness guard (!matchs || matchs.length === 0) is List.isEmpty, a
List argument having no null value.  Errors thrown by the helpers propagate
in source order: the variance sum runs first. -/
noncomputable def processGameResults (cfg : GlickoConfig) (player : Player)
    (matchs : List Match) (daysSinceLastActive : Option ℝ) (now : ℝ) :
    Except String Player :=
  let startE : Except String Player :=
    match daysSinceLastActive with
    | some d => if d > 0 then updateRDForInactivity cfg player d else Except.ok player
    | none => Except.ok player
  match startE with
  | Except.error e => Except.error e
  | Except.ok playerAtPeriodStart =>
    if matchs.isEmpty then Except.ok playerAtPeriodStart
    else
      match sumMatchVarianceFactors cfg playerAtPeriodStart.rating playerAtPeriodStart.rd matchs with
      | Except.error e => Except.error e
      | Except.ok matchVarianceFactorSum =>
        match sumWeightedScorePerformance cfg playerAtPeriodStart.rating playerAtPeriodStart.rd matchs with
        | Except.error e => Except.error e
        | Except.ok weightedScorePerformanceSum =>
          match calculateNewRD cfg playerAtPeriodStart.rd matchVarianceFactorSum with
          | Except.error e => Except.error e
          | Except.ok newRdUnrounded =>
            let newRatingUnrounded := calculateNewRating cfg
              playerAtPeriodStart.rating newRdUnrounded weightedScorePerformanceSum
            Except.ok
              { rating := roundToDecimalPlaces newRatingUnrounded cfg.roundingPrecision
                rd := roundToDecimalPlaces newRdUnrounded cfg.roundingPrecision
                lastPlayedMatch := some now }

/- Helper lemmas shared by several claim proofs. -/

lemma roundToDecimalPlaces_mono {x y : ℝ} (p : ℕ) (h : x ≤ y) :
    roundToDecimalPlaces x p ≤ roundToDecimalPlaces y p := by
  have hp : (0 : ℝ) < (10 : ℝ) ^ p := by positivity
  unfold roundToDecimalPlaces
  gcongr

lemma updateRDForInactivity_absent (cfg : GlickoConfig) (p : Player) (d : ℝ)
    (hd : 0 ≤ d) (hla : p.lastPlayedMatch = none) :
    updateRDForInactivity cfg p d = Except.ok p := by
  unfold updateRDForInactivity
  rw [if_neg (not_lt.mpr hd), if_pos]
  simp [hla]

lemma updateRDForInactivity_present (cfg : GlickoConfig) (p : Player) (d : ℝ) (t : ℝ)
    (hd : 0 ≤ d) (hla : p.lastPlayedMatch = some t) :
    updateRDForInactivity cfg p d = Except.ok { p with
      rd := roundToDecimalPlaces
        (min (Real.sqrt (p.rd ^ 2 + cfg.inactivityConstant ^ 2 * (d / cfg.daysPerRatingPeriod)))
          cfg.rdCeiling) cfg.roundingPrecision } := by
  unfold updateRDForInactivity
  rw [if_neg (not_lt.mpr hd), if_neg]
  simp [hla]

/-- Claim C1 (amended): a negative daysSinceLastActive makes
updateRDForInactivity raise the invalid-argument error, but processGameResults
does not raise: its guard daysSinceLastActive > 0 fails, so inactivity
inflation is skipped and processing proceeds exactly as if no
daysSinceLastActive had been supplied. -/
theorem C1_negative_days (cfg : GlickoConfig) (p : Player) (matchs : List Match)
    (now : ℝ) (d : ℝ) (hd : d < 0) :
    updateRDForInactivity cfg p d = Except.error "Days since last active cannot be negative." ∧
    processGameResults cfg p matchs (some d) now = processGameResults cfg p matchs none now := by
  constructor
  · unfold updateRDForInactivity
    rw [if_pos hd]
  · unfold processGameResults
    have hng : ¬ d > 0 := by linarith
    simp [hng]

/-- Claim C1 counterexample: with the default configuration, the state
(1500, 350, no lastActive), the empty match list and daysSinceLastActive = -1,
processGameResults returns Except.ok with the state unchanged instead of
raising the invalid-argument error the claim requires. -/
theorem C1_counterexample :
    processGameResults defaultConfig { rating := 1500, rd := 350, lastPlayedMatch := none }
      [] (some (-1)) 0 =
      Except.ok { rating := 1500, rd := 350, lastPlayedMatch := none } := by
  unfold processGameResults
  norm_num

/-- Claim C1 witness: the amended statement instantiated at the default
configuration, the state (1500, 350, no lastActive), the empty match list and
daysSinceLastActive = -1. -/
theorem C1_witness :
    (-1 : ℝ) < 0 ∧
    (updateRDForInactivity defaultConfig { rating := 1500, rd := 350, lastPlayedMatch := none }
        (-1) = Except.error "Days since last active cannot be negative." ∧
      processGameResults defaultConfig { rating := 1500, rd := 350, lastPlayedMatch := none }
          [] (some (-1)) 0 =
        processGameResults defaultConfig { rating := 1500, rd := 350, lastPlayedMatch := none }
          [] none 0) :=
  ⟨by norm_num,
    C1_negative_days defaultConfig { rating := 1500, rd := 350, lastPlayedMatch := none }
      [] 0 (-1) (by norm_num)⟩

/-- Claim C6 (amended): for every state whose lastActive is absent and every
daysSinceLastActive d that is at least 0, updateRDForInactivity returns the
state exactly unchanged: lastActive stays absent, and rating and rd are
returned exactly as given, with no rounding applied on this path. -/
theorem C6_lastActive_absent (cfg : GlickoConfig) (p : Player) (d : ℝ)
    (hd : 0 ≤ d) (hla : p.lastPlayedMatch = none) :
    updateRDForInactivity cfg p d = Except.ok p :=
  updateRDForInactivity_absent cfg p d hd hla

/-- Claim C6 counterexample: with the default configuration (precision 2) and
absent lastActive, the input rd = 0.005 is returned exactly, whereas the
claimed value, rd rounded to precision 2, would be 0.01. -/
theorem C6_counterexample :
    updateRDForInactivity defaultConfig
        { rating := 1500, rd := 5 / 1000, lastPlayedMatch := none } 0 =
      Except.ok { rating := 1500, rd := 5 / 1000, lastPlayedMatch := none } ∧
    roundToDecimalPlaces (5 / 1000) defaultConfig.roundingPrecision ≠ 5 / 1000 := by
  constructor
  · unfold updateRDForInactivity
    norm_num
  · unfold roundToDecimalPlaces defaultConfig
    have h1 : (5 / 1000 : ℝ) * (10 : ℝ) ^ (2 : ℕ) + 1 / 2 = 1 := by norm_num
    rw [h1]
    norm_num

/-- Claim C6 witness: the amended statement instantiated at the default
configuration, the state (1600, 150, no lastActive) and d = 0. -/
theorem C6_witness :
    (0 : ℝ) ≤ 0 ∧
    (Player.mk 1600 150 none).lastPlayedMatch = none ∧
    updateRDForInactivity defaultConfig (Player.mk 1600 150 none) 0 =
      Except.ok (Player.mk 1600 150 none) :=
  ⟨le_refl 0, rfl, C6_lastActive_absent defaultConfig (Player.mk 1600 150 none) 0 (le_refl 0) rfl⟩

/-- Claim C10: for every positive prior RD and every information sum,
calculateNewRD succeeds and the value it returns is strictly positive in both
of its branches (the prior RD itself, or the square root of a positive
quantity), so strict positivity of RD is preserved before output rounding. -/
theorem C10_newRD_positive (cfg : GlickoConfig) (rd info : ℝ) (hrd : 0 < rd) :
    ∃ rdNew, calculateNewRD cfg rd info = Except.ok rdNew ∧ 0 < rdNew := by
  unfold calculateNewRD
  rw [if_neg (not_le.mpr hrd)]
  by_cases hinfo : info ≤ 0
  · rw [if_pos hinfo]
    exact ⟨rd, rfl, hrd⟩
  · rw [if_neg hinfo]
    refine ⟨_, rfl, ?_⟩
    show (0 : ℝ) < Real.sqrt (1 / (1 / rd ^ 2 + cfg.q ^ 2 * info))
    have hq2 : (0 : ℝ) ≤ cfg.q ^ 2 * info :=
      mul_nonneg (sq_nonneg _) (le_of_lt (not_le.mp hinfo))
    have hS : (0 : ℝ) < 1 / rd ^ 2 + cfg.q ^ 2 * info := by
      have hrd2 : (0 : ℝ) < 1 / rd ^ 2 := by positivity
      linarith
    exact Real.sqrt_pos.mpr (by positivity)

/-- Claim C10 witness: the statement instantiated at the default
configuration, prior RD 200 and information sum 0. -/
theorem C10_witness :
    (0 : ℝ) < 200 ∧
    ∃ rdNew, calculateNewRD defaultConfig 200 0 = Except.ok rdNew ∧ 0 < rdNew :=
  ⟨by norm_num, C10_newRD_positive defaultConfig 200 0 (by norm_num)⟩

/-- Claim C3: calculateNewRD raises the invalid-state error whenever the prior
RD is non-positive; with positive prior RD it returns the prior RD unchanged
when the information sum is non-positive, and for a positive information sum
it returns 1 / sqrt(1 / priorRd^2 + q^2 * informationSum), a value strictly
smaller than the prior RD.  The strict decrease uses that the engine constant
q is non-zero, which holds for every constructed engine since the constructor
always sets q to log 10 / 400. -/
theorem C3_posteriorRD (cfg : GlickoConfig) (rd info : ℝ) (hq : cfg.q ≠ 0) :
    (rd ≤ 0 → calculateNewRD cfg rd info = Except.error "Initial RD must be positive.") ∧
    (0 < rd → info ≤ 0 → calculateNewRD cfg rd info = Except.ok rd) ∧
    (0 < rd → 0 < info →
      calculateNewRD cfg rd info =
        Except.ok (1 / Real.sqrt (1 / rd ^ 2 + cfg.q ^ 2 * info)) ∧
      1 / Real.sqrt (1 / rd ^ 2 + cfg.q ^ 2 * info) < rd) := by
  refine ⟨?_, ?_, ?_⟩
  · intro h
    unfold calculateNewRD
    rw [if_pos h]
  · intro h1 h2
    unfold calculateNewRD
    rw [if_neg (not_le.mpr h1), if_pos h2]
  · intro h1 h2
    have hq2 : (0 : ℝ) < cfg.q ^ 2 * info := mul_pos (pow_two_pos_of_ne_zero hq) h2
    have hrd2 : (0 : ℝ) < 1 / rd ^ 2 := by positivity
    constructor
    · unfold calculateNewRD
      rw [if_neg (not_le.mpr h1), if_neg (not_le.mpr h2)]
      show Except.ok (Real.sqrt (1 / (1 / rd ^ 2 + cfg.q ^ 2 * info))) = _
      rw [one_div (1 / rd ^ 2 + cfg.q ^ 2 * info), Real.sqrt_inv,
        one_div (Real.sqrt (1 / rd ^ 2 + cfg.q ^ 2 * info))]
    · have hlt : 1 / rd ^ 2 < 1 / rd ^ 2 + cfg.q ^ 2 * info := by linarith
      have h0 : Real.sqrt (1 / rd ^ 2) < Real.sqrt (1 / rd ^ 2 + cfg.q ^ 2 * info) :=
        Real.sqrt_lt_sqrt hrd2.le hlt
      have heq : Real.sqrt (1 / rd ^ 2) = 1 / rd := by
        rw [one_div (rd ^ 2), Real.sqrt_inv, Real.sqrt_sq h1.le, one_div]
      rw [heq] at h0
      have h3 : (0 : ℝ) < 1 / rd := by positivity
      have h4 := one_div_lt_one_div_of_lt h3 h0
      rwa [one_div_one_div] at h4

/-- Claim C3 witness: the statement instantiated at the default configuration,
prior RD 350 and information sum 1 (the default q is log 10 / 400, which is
not zero). -/
theorem C3_witness :
    defaultConfig.q ≠ 0 ∧
    (((350 : ℝ) ≤ 0 →
        calculateNewRD defaultConfig 350 1 = Except.error "Initial RD must be positive.") ∧
      ((0 : ℝ) < 350 → (1 : ℝ) ≤ 0 → calculateNewRD defaultConfig 350 1 = Except.ok 350) ∧
      ((0 : ℝ) < 350 → (0 : ℝ) < 1 →
        calculateNewRD defaultConfig 350 1 =
          Except.ok (1 / Real.sqrt (1 / (350 : ℝ) ^ 2 + defaultConfig.q ^ 2 * 1)) ∧
        1 / Real.sqrt (1 / (350 : ℝ) ^ 2 + defaultConfig.q ^ 2 * 1) < 350)) := by
  have hq : defaultConfig.q ≠ 0 := by
    have hl : (0 : ℝ) < Real.log 10 := Real.log_pos (by norm_num)
    have : (0 : ℝ) < Real.log 10 / 400 := by positivity
    exact ne_of_gt this
  exact ⟨hq, C3_posteriorRD defaultConfig 350 1 hq⟩

/-- Claim C9: for all ratings a and b and every opponent RD, the expected
outcomes of the two sides of the same game are complementary: swapping the
subject and opponent ratings while keeping the opponent RD yields expected
scores that sum to exactly 1. -/
theorem C9_expected_outcome_complementary (cfg : GlickoConfig) (a b r : ℝ) :
    calculateExpectedOutcome cfg a b r + calculateExpectedOutcome cfg b a r = 1 := by
  show 1 / (1 + Real.exp (-MathUtils.g r cfg.q * (a - b) * cfg.q)) +
      1 / (1 + Real.exp (-MathUtils.g r cfg.q * (b - a) * cfg.q)) = 1
  have hb : -MathUtils.g r cfg.q * (b - a) * cfg.q =
      -(-MathUtils.g r cfg.q * (a - b) * cfg.q) := by ring
  rw [hb]
  set x := -MathUtils.g r cfg.q * (a - b) * cfg.q with hx
  have h1 : (0 : ℝ) < 1 + Real.exp x := by positivity
  have h2 : (0 : ℝ) < 1 + Real.exp (-x) := by positivity
  rw [Real.exp_neg]
  have h3 : Real.exp x ≠ 0 := (Real.exp_pos x).ne'
  have h4 : 1 + (Real.exp x)⁻¹ ≠ 0 := by positivity
  field_simp
  ring

/- The common skip-and-accumulate loop of the two aggregation functions,
expressed as a sum over the matches whose opponent RD is positive. -/
lemma foldl_skip_eq_sum (f : Match → ℝ) :
    ∀ (l : List Match) (a : ℝ),
      l.foldl (fun sum m => if m.opponent.rd ≤ 0 then sum else sum + f m) a =
        a + ((l.filter fun m => decide (0 < m.opponent.rd)).map f).sum := by
  intro l
  induction l with
  | nil =>
      intro a
      simp
  | cons m ms ih =>
      intro a
      by_cases h : m.opponent.rd ≤ 0
      · have hf : decide (0 < m.opponent.rd) = false := decide_eq_false (not_lt.mpr h)
        simp only [List.foldl_cons, if_pos h, List.filter_cons, hf, Bool.false_eq_true,
          if_false, ih]
      · have hf : decide (0 < m.opponent.rd) = true := decide_eq_true (not_le.mp h)
        simp only [List.foldl_cons, if_neg h, List.filter_cons, hf, if_true, List.map_cons,
          List.sum_cons, ih]
        ring

/-- Claim C4: sumMatchVarianceFactors and sumWeightedScorePerformance raise
the invalid-state error exactly when the subject RD is non-positive, for every
match list including the empty one; with positive subject RD they never fail
and each returns the sum, over exactly those matches whose opponent RD is
positive, of g(opp.rd)^2 * E * (1 - E) respectively g(opp.rd) * (score - E),
skipping every match with non-positive opponent RD; the sum over the empty
list is 0. -/
theorem C4_aggregation (cfg : GlickoConfig) (playerRating playerRd : ℝ)
    (matchs : List Match) :
    (playerRd ≤ 0 →
      sumMatchVarianceFactors cfg playerRating playerRd matchs =
        Except.error "Player RD must be positive for calculations." ∧
      sumWeightedScorePerformance cfg playerRating playerRd matchs =
        Except.error "Player RD must be positive for calculations.") ∧
    (0 < playerRd →
      sumMatchVarianceFactors cfg playerRating playerRd matchs =
        Except.ok (((matchs.filter fun m => decide (0 < m.opponent.rd)).map fun m =>
          MathUtils.g m.opponent.rd cfg.q ^ 2 *
            calculateExpectedOutcome cfg playerRating m.opponent.rating m.opponent.rd *
            (1 - calculateExpectedOutcome cfg playerRating m.opponent.rating m.opponent.rd)).sum) ∧
      sumWeightedScorePerformance cfg playerRating playerRd matchs =
        Except.ok (((matchs.filter fun m => decide (0 < m.opponent.rd)).map fun m =>
          MathUtils.g m.opponent.rd cfg.q *
            (m.score -
              calculateExpectedOutcome cfg playerRating m.opponent.rating m.opponent.rd)).sum)) := by
  constructor
  · intro h
    unfold sumMatchVarianceFactors sumWeightedScorePerformance
    rw [if_pos h, if_pos h]
    exact ⟨rfl, rfl⟩
  · intro h
    have hn := not_le.mpr h
    constructor
    · unfold sumMatchVarianceFactors
      rw [if_neg hn]
      refine congrArg Except.ok ?_
      have hfold := foldl_skip_eq_sum (fun m =>
        MathUtils.g m.opponent.rd cfg.q ^ 2 *
          calculateExpectedOutcome cfg playerRating m.opponent.rating m.opponent.rd *
          (1 - calculateExpectedOutcome cfg playerRating m.opponent.rating m.opponent.rd))
        matchs 0
      simpa using hfold
    · unfold sumWeightedScorePerformance
      rw [if_neg hn]
      refine congrArg Except.ok ?_
      have hfold := foldl_skip_eq_sum (fun m =>
        MathUtils.g m.opponent.rd cfg.q *
          (m.score - calculateExpectedOutcome cfg playerRating m.opponent.rating m.opponent.rd))
        matchs 0
      simpa using hfold

/-- Claim C4 witness: the statement instantiated at the default configuration,
subject rating 1500, subject RD 200 and the empty match list, for which both
aggregations return 0. -/
theorem C4_witness :
    (0 : ℝ) < 200 ∧
    sumMatchVarianceFactors defaultConfig 1500 200 [] = Except.ok 0 ∧
    sumWeightedScorePerformance defaultConfig 1500 200 [] = Except.ok 0 := by
  have h := (C4_aggregation defaultConfig 1500 200 []).2 (by norm_num)
  refine ⟨by norm_num, ?_, ?_⟩
  · simpa using h.1
  · simpa using h.2

/-- Claim C5 (amended): for every state whose lastActive is present and every
daysSinceLastActive d at least 0 (under the validated-configuration contract
daysPerRatingPeriod > 0), updateRDForInactivity replaces rd by
round(min(sqrt(rd^2 + inactivityConstant^2 * (d / daysPerRatingPeriod)),
rdCeiling), roundingPrecision) and leaves every other field unchanged;
consequently the result RD never exceeds rdCeiling rounded to
roundingPrecision (in particular it never exceeds rdCeiling itself whenever
rdCeiling is exactly representable at that precision, since the rounding is
applied after the clamp), and an input rd already above the ceiling is pulled
down to the rounded ceiling. -/
theorem C5_inflation (cfg : GlickoConfig) (p : Player) (d t : ℝ)
    (hd : 0 ≤ d) (hdpp : 0 < cfg.daysPerRatingPeriod) (hla : p.lastPlayedMatch = some t) :
    updateRDForInactivity cfg p d = Except.ok { p with
      rd := roundToDecimalPlaces
        (min (Real.sqrt (p.rd ^ 2 + cfg.inactivityConstant ^ 2 * (d / cfg.daysPerRatingPeriod)))
          cfg.rdCeiling) cfg.roundingPrecision } ∧
    (∀ p2 : Player, updateRDForInactivity cfg p d = Except.ok p2 →
      p2.rd ≤ roundToDecimalPlaces cfg.rdCeiling cfg.roundingPrecision) ∧
    (cfg.rdCeiling < p.rd →
      updateRDForInactivity cfg p d =
        Except.ok { p with rd := roundToDecimalPlaces cfg.rdCeiling cfg.roundingPrecision }) := by
  have hmain := updateRDForInactivity_present cfg p d t hd hla
  refine ⟨hmain, ?_, ?_⟩
  · intro p2 h
    rw [hmain] at h
    have hp2 := (Except.ok.injEq _ _).mp h
    have hrd : p2.rd = roundToDecimalPlaces
        (min (Real.sqrt (p.rd ^ 2 + cfg.inactivityConstant ^ 2 * (d / cfg.daysPerRatingPeriod)))
          cfg.rdCeiling) cfg.roundingPrecision := by
      rw [← hp2]
    rw [hrd]
    exact roundToDecimalPlaces_mono cfg.roundingPrecision (min_le_right _ _)
  · intro hlt
    rw [hmain]
    have hnn : (0 : ℝ) ≤ cfg.inactivityConstant ^ 2 * (d / cfg.daysPerRatingPeriod) :=
      mul_nonneg (sq_nonneg _) (div_nonneg hd hdpp.le)
    have hsq : Real.sqrt (p.rd ^ 2) ≤
        Real.sqrt (p.rd ^ 2 + cfg.inactivityConstant ^ 2 * (d / cfg.daysPerRatingPeriod)) :=
      Real.sqrt_le_sqrt (by linarith)
    have habs : p.rd ≤ Real.sqrt (p.rd ^ 2) := by
      rw [Real.sqrt_sq_eq_abs]
      exact le_abs_self _
    have hmin : min
        (Real.sqrt (p.rd ^ 2 + cfg.inactivityConstant ^ 2 * (d / cfg.daysPerRatingPeriod)))
        cfg.rdCeiling = cfg.rdCeiling :=
      min_eq_right (by linarith)
    rw [hmin]

/-- Claim C5 counterexample: with rdCeiling = 0.006 and the default precision
2 (a configuration the constructor accepts), the state (1500, 1, lastActive
present) and d = 0 give min(sqrt(1), 0.006) = 0.006, which rounds to 0.01: the
returned RD 0.01 exceeds the ceiling 0.006, refuting the claim that the result
RD never exceeds rdCeiling. -/
theorem C5_counterexample :
    updateRDForInactivity { defaultConfig with rdCeiling := 6 / 1000 }
        { rating := 1500, rd := 1, lastPlayedMatch := some 0 } 0 =
      Except.ok { rating := 1500, rd := 1 / 100, lastPlayedMatch := some 0 } ∧
    (6 / 1000 : ℝ) < 1 / 100 := by
  constructor
  · unfold updateRDForInactivity
    rw [if_neg (by norm_num : ¬ (0 : ℝ) < 0)]
    have h1 : (1 : ℝ) ^ 2 +
        ({ defaultConfig with rdCeiling := 6 / 1000 } : GlickoConfig).inactivityConstant ^ 2 *
          (0 / ({ defaultConfig with rdCeiling := 6 / 1000 } : GlickoConfig).daysPerRatingPeriod)
        = 1 := by
      norm_num
    simp only [Option.isNone_some, Bool.false_eq_true, if_false]
    show Except.ok (Player.mk 1500 (roundToDecimalPlaces
      (min (Real.sqrt ((1 : ℝ) ^ 2 + _ * (0 / _))) _) _) (some 0)) = _
    rw [h1, Real.sqrt_one]
    have h2 : min (1 : ℝ) (6 / 1000) = 6 / 1000 := by
      rw [min_eq_right]
      norm_num
    show Except.ok (Player.mk 1500 (roundToDecimalPlaces (min (1 : ℝ) (6 / 1000)) 2) (some 0)) = _
    rw [h2]
    unfold roundToDecimalPlaces
    norm_num
  · norm_num

/-- Claim C5 witness: the amended statement instantiated at the default
configuration, the state (1500, 300, lastActive present) and d = 60. -/
theorem C5_witness :
    (0 : ℝ) ≤ 60 ∧ 0 < defaultConfig.daysPerRatingPeriod ∧
    (Player.mk 1500 300 (some 0)).lastPlayedMatch = some 0 ∧
    (updateRDForInactivity defaultConfig (Player.mk 1500 300 (some 0)) 60 =
        Except.ok { Player.mk 1500 300 (some 0) with
          rd := roundToDecimalPlaces
            (min (Real.sqrt ((300 : ℝ) ^ 2 + defaultConfig.inactivityConstant ^ 2 *
                (60 / defaultConfig.daysPerRatingPeriod)))
              defaultConfig.rdCeiling) defaultConfig.roundingPrecision } ∧
      (∀ p2 : Player, updateRDForInactivity defaultConfig (Player.mk 1500 300 (some 0)) 60 =
          Except.ok p2 →
        p2.rd ≤ roundToDecimalPlaces defaultConfig.rdCeiling defaultConfig.roundingPrecision) ∧
      (defaultConfig.rdCeiling < (300 : ℝ) →
        updateRDForInactivity defaultConfig (Player.mk 1500 300 (some 0)) 60 =
          Except.ok { Player.mk 1500 300 (some 0) with
            rd := roundToDecimalPlaces defaultConfig.rdCeiling
              defaultConfig.roundingPrecision })) := by
  refine ⟨by norm_num, ?_, rfl, ?_⟩
  · show (0 : ℝ) < 30
    norm_num
  · exact C5_inflation defaultConfig (Player.mk 1500 300 (some 0)) 60 0 (by norm_num)
      (by show (0 : ℝ) < 30; norm_num) rfl

/-- Claim C7: for every partial configuration the constructor accepts -
including one that supplies its own value for q - the constructed engine
configuration has q = log 10 / 400: the caller-supplied q override is
ignored, not honored.  Every subsequent expected-outcome, information, RD
and rating computation reads its q from this constructed configuration. -/
theorem C7_q_forced (overrides : GlickoConfigOverrides) (cfg : GlickoConfig)
    (h : mkGlicko overrides = Except.ok cfg) : cfg.q = Real.log 10 / 400 := by
  simp only [mkGlicko] at h
  split_ifs at h
  all_goals
    first
      | exact Except.noConfusion h
      | (rw [Except.ok.injEq] at h
         rw [← h]
         rfl)

/-- Claim C7 witness: the constructor applied to the override q = 1 still
yields the configuration whose q is log 10 / 400. -/
theorem C7_witness :
    mkGlicko { q := some 1 } =
      Except.ok (GlickoConfig.mk 1500 350 0.5 350 (Real.log 10 / 400) 30 2) ∧
    (GlickoConfig.mk 1500 350 0.5 350 (Real.log 10 / 400) 30 2).q = Real.log 10 / 400 := by
  have h : mkGlicko { q := some 1 } =
      Except.ok (GlickoConfig.mk 1500 350 0.5 350 (Real.log 10 / 400) 30 2) := by
    unfold mkGlicko
    norm_num [defaultConfig]
  exact ⟨h, C7_q_forced { q := some 1 } _ h⟩

/- processGameResults on the empty match list, reduced to its period-start
computation. -/
lemma processGameResults_nil (cfg : GlickoConfig) (p : Player) (dOpt : Option ℝ) (now : ℝ) :
    processGameResults cfg p [] dOpt now =
      match dOpt with
      | some d => if d > 0 then updateRDForInactivity cfg p d else Except.ok p
      | none => Except.ok p := by
  unfold processGameResults
  match dOpt with
  | none => rfl
  | some d =>
      by_cases hd : d > 0
      · simp only [if_pos hd]
        cases hup : updateRDForInactivity cfg p d with
        | error e => simp
        | ok s => simp
      · simp only [if_neg hd]
        simp

/-- Claim C8: processGameResults with an empty match list returns the
period-start state and never stamps lastPlayedMatch: the returned rating and
lastPlayedMatch always equal the input values; with no daysSinceLastActive,
or one that is not positive (including a negative one), the state is returned
exactly unchanged; when inactivity inflation applies, the result is exactly
the inflated state, so only rd can differ. -/
theorem C8_empty_matches (cfg : GlickoConfig) (p : Player) (dOpt : Option ℝ) (now : ℝ) :
    ∃ p2, processGameResults cfg p [] dOpt now = Except.ok p2 ∧
      p2.rating = p.rating ∧ p2.lastPlayedMatch = p.lastPlayedMatch ∧
      (dOpt = none → p2 = p) ∧
      (∀ d, dOpt = some d → d ≤ 0 → p2 = p) ∧
      (∀ d, dOpt = some d → 0 < d → updateRDForInactivity cfg p d = Except.ok p2) := by
  obtain ⟨pr, prd, pl⟩ := p
  match dOpt with
  | none =>
      refine ⟨Player.mk pr prd pl, ?_, rfl, rfl, fun _ => rfl,
        fun d hd => Option.noConfusion hd, fun d hd => Option.noConfusion hd⟩
      simp only [processGameResults_nil]
  | some d =>
      by_cases hd : d > 0
      · match pl with
        | none =>
            have hup := updateRDForInactivity_absent cfg (Player.mk pr prd none) d
              (le_of_lt hd) rfl
            refine ⟨Player.mk pr prd none, ?_, rfl, rfl,
              fun hcon => Option.noConfusion hcon, fun d2 h2 hle => rfl, ?_⟩
            · simp only [processGameResults_nil, if_pos hd, hup]
            · intro d2 h2 hpos
              injection h2 with h3
              rw [← h3]
              exact hup
        | some t =>
            have hup := updateRDForInactivity_present cfg (Player.mk pr prd (some t)) d t
              (le_of_lt hd) rfl
            refine ⟨{ Player.mk pr prd (some t) with
                rd := roundToDecimalPlaces
                  (min (Real.sqrt (prd ^ 2 +
                      cfg.inactivityConstant ^ 2 * (d / cfg.daysPerRatingPeriod)))
                    cfg.rdCeiling) cfg.roundingPrecision },
              ?_, rfl, rfl, fun hcon => Option.noConfusion hcon, ?_, ?_⟩
            · simp only [processGameResults_nil, if_pos hd, hup]
            · intro d2 h2 hle
              injection h2 with h3
              rw [← h3] at hle
              exact absurd hle (not_le.mpr hd)
            · intro d2 h2 hpos
              injection h2 with h3
              rw [← h3]
              exact hup
      · refine ⟨Player.mk pr prd pl, ?_, rfl, rfl, fun hcon => Option.noConfusion hcon,
          fun d2 h2 hle => rfl, ?_⟩
        · simp only [processGameResults_nil, if_neg hd]
        · intro d2 h2 hpos
          injection h2 with h3
          rw [← h3] at hpos
          exact absurd hpos hd

/-- Claim C8 witness: the statement instantiated at the default configuration,
the state (1600, 150, no lastActive), the empty match list and a
daysSinceLastActive of -1, which is not positive, so the state comes back
exactly unchanged with lastPlayedMatch untouched. -/
theorem C8_witness :
    ∃ p2, processGameResults defaultConfig (Player.mk 1600 150 none) [] (some (-1)) 0 =
        Except.ok p2 ∧
      p2.rating = 1600 ∧ p2.lastPlayedMatch = none ∧
      ((some (-1) : Option ℝ) = none → p2 = Player.mk 1600 150 none) ∧
      (∀ d, (some (-1) : Option ℝ) = some d → d ≤ 0 → p2 = Player.mk 1600 150 none) ∧
      (∀ d, (some (-1) : Option ℝ) = some d → 0 < d →
        updateRDForInactivity defaultConfig (Player.mk 1600 150 none) d = Except.ok p2) :=
  C8_empty_matches defaultConfig (Player.mk 1600 150 none) (some (-1)) 0

/- processGameResults on a non-empty match list with no inactivity argument,
reduced to the aggregation and update pipeline of the source. -/
lemma processGameResults_cons_none (cfg : GlickoConfig) (p : Player) (m : Match)
    (ms : List Match) (now : ℝ) :
    processGameResults cfg p (m :: ms) none now =
      match sumMatchVarianceFactors cfg p.rating p.rd (m :: ms) with
      | Except.error e => Except.error e
      | Except.ok mvfs =>
        match sumWeightedScorePerformance cfg p.rating p.rd (m :: ms) with
        | Except.error e => Except.error e
        | Except.ok wsps =>
          match calculateNewRD cfg p.rd mvfs with
          | Except.error e => Except.error e
          | Except.ok newRdUnrounded =>
            Except.ok
              { rating := roundToDecimalPlaces
                  (calculateNewRating cfg p.rating newRdUnrounded wsps) cfg.roundingPrecision,
                rd := roundToDecimalPlaces newRdUnrounded cfg.roundingPrecision,
                lastPlayedMatch := some now } := by
  unfold processGameResults
  rfl

/-- Claim C2: for every state with positive rd and every non-empty match list,
processGameResults returns the rating
round(priorRating + q * rdNew^2 * performanceSum, roundingPrecision), where
rdNew is the already-updated, unrounded posterior RD obtained by
calculateNewRD from the information sum before the rating is computed: the
rating change is scaled by the square of the posterior RD, never by the prior
RD. -/
theorem C2_posterior_scaling (cfg : GlickoConfig) (p : Player) (matchs : List Match)
    (now : ℝ) (hrd : 0 < p.rd) (hne : matchs ≠ []) :
    ∃ infoSum perfSum rdNew,
      sumMatchVarianceFactors cfg p.rating p.rd matchs = Except.ok infoSum ∧
      sumWeightedScorePerformance cfg p.rating p.rd matchs = Except.ok perfSum ∧
      calculateNewRD cfg p.rd infoSum = Except.ok rdNew ∧
      processGameResults cfg p matchs none now = Except.ok
        { rating := roundToDecimalPlaces (p.rating + cfg.q * rdNew ^ 2 * perfSum)
            cfg.roundingPrecision,
          rd := roundToDecimalPlaces rdNew cfg.roundingPrecision,
          lastPlayedMatch := some now } := by
  have hnle : ¬ p.rd ≤ 0 := not_le.mpr hrd
  obtain ⟨infoSum, hvar⟩ :
      ∃ v, sumMatchVarianceFactors cfg p.rating p.rd matchs = Except.ok v := by
    unfold sumMatchVarianceFactors
    rw [if_neg hnle]
    exact ⟨_, rfl⟩
  obtain ⟨perfSum, hperf⟩ :
      ∃ v, sumWeightedScorePerformance cfg p.rating p.rd matchs = Except.ok v := by
    unfold sumWeightedScorePerformance
    rw [if_neg hnle]
    exact ⟨_, rfl⟩
  obtain ⟨rdNew, hnew⟩ : ∃ v, calculateNewRD cfg p.rd infoSum = Except.ok v := by
    unfold calculateNewRD
    rw [if_neg hnle]
    by_cases hI : infoSum ≤ 0
    · rw [if_pos hI]
      exact ⟨_, rfl⟩
    · rw [if_neg hI]
      exact ⟨_, rfl⟩
  refine ⟨infoSum, perfSum, rdNew, hvar, hperf, hnew, ?_⟩
  obtain ⟨m, ms, rfl⟩ : ∃ m ms, matchs = m :: ms := by
    cases matchs with
    | nil => exact absurd rfl hne
    | cons a l => exact ⟨a, l, rfl⟩
  rw [processGameResults_cons_none]
  simp only [hvar, hperf, hnew]
  rfl

/-- Claim C2 witness: the statement instantiated at the default configuration,
the state (1500, 350, no lastActive) and a single win against an opponent at
(1400, 30). -/
theorem C2_witness :
    (0 : ℝ) < 350 ∧
    [Match.mk (Player.mk 1500 350 none) (Opponent.mk 1400 30) 1 0] ≠ [] ∧
    ∃ infoSum perfSum rdNew,
      sumMatchVarianceFactors defaultConfig 1500 350
          [Match.mk (Player.mk 1500 350 none) (Opponent.mk 1400 30) 1 0] =
        Except.ok infoSum ∧
      sumWeightedScorePerformance defaultConfig 1500 350
          [Match.mk (Player.mk 1500 350 none) (Opponent.mk 1400 30) 1 0] =
        Except.ok perfSum ∧
      calculateNewRD defaultConfig 350 infoSum = Except.ok rdNew ∧
      processGameResults defaultConfig (Player.mk 1500 350 none)
          [Match.mk (Player.mk 1500 350 none) (Opponent.mk 1400 30) 1 0] none 0 = Except.ok
        { rating := roundToDecimalPlaces (1500 + defaultConfig.q * rdNew ^ 2 * perfSum)
            defaultConfig.roundingPrecision,
          rd := roundToDecimalPlaces rdNew defaultConfig.roundingPrecision,
          lastPlayedMatch := some 0 } :=
  ⟨by norm_num, by simp,
    C2_posterior_scaling defaultConfig (Player.mk 1500 350 none)
      [Match.mk (Player.mk 1500 350 none) (Opponent.mk 1400 30) 1 0] 0
      (by show (0 : ℝ) < 350; norm_num) (by simp)⟩

end GlickoTS
